import Mathlib

/-!
Verification of the apko build core: a shallow embedding of the
architecture parsing, image-configuration validation, tarball writing,
CycloneDX SBOM generation and build orchestration code, with theorems
checking the natural-language specification against it.
-/

namespace Apko

/-! ## Architectures (pkg/build/types/types.go) -/

/-- Go `type Architecture string`. -/
abbrev Architecture := String

/-- The canonical architecture constants of types.go (`AllArchs`). -/
def allArchs : List Architecture :=
  ["386", "amd64", "arm64", "arm/v6", "arm/v7", "ppc64le", "riscv64", "s390x"]

/-- `Architecture.ToAPK` from types.go: the apk-style equivalent string. -/
def toAPK (a : Architecture) : String :=
  if a = "386" then "x86"
  else if a = "amd64" then "x86_64"
  else if a = "arm64" then "aarch64"
  else if a = "arm/v6" then "armhf"
  else if a = "arm/v7" then "armv7"
  else a

/-- The per-element conversion done by the `switch` inside
`ParseArchitectures`: apk-style names map to canonical names, anything
else stays as is. -/
def canonArch (s : String) : Architecture :=
  if s = "x86" then "386"
  else if s = "x86_64" then "amd64"
  else if s = "aarch64" then "arm64"
  else if s = "armhf" then "arm/v6"
  else if s = "armv7" then "arm/v7"
  else s

/-- Lexicographic comparison of character lists by code point; on the
ASCII architecture names this agrees with Go string `<`/`<=`. -/
def lexLe : List Char → List Char → Bool
  | [], _ => true
  | _ :: _, [] => false
  | a :: as, b :: bs =>
    if a.toNat < b.toNat then true
    else if b.toNat < a.toNat then false
    else lexLe as bs

/-- String order used by the `sort.Slice` call in `ParseArchitectures`. -/
def strLe (a b : String) : Prop := lexLe a.data b.data = true

instance : DecidableRel strLe := fun a b => by unfold strLe; infer_instance

theorem lexLe_total : ∀ as bs : List Char, lexLe as bs = true ∨ lexLe bs as = true
  | [], _ => Or.inl rfl
  | _ :: _, [] => Or.inr rfl
  | a :: as, b :: bs => by
    rcases Nat.lt_trichotomy a.toNat b.toNat with h | h | h
    · exact Or.inl (by simp [lexLe, h])
    · rcases lexLe_total as bs with ih | ih
      · exact Or.inl (by simp [lexLe, h.le.not_lt, Nat.lt_irrefl, ih])
      · exact Or.inr (by simp [lexLe, h.le.not_lt, h.ge.not_lt, Nat.lt_irrefl, ih])
    · exact Or.inr (by simp [lexLe, h])

theorem char_toNat_inj {a b : Char} (h : a.toNat = b.toNat) : a = b := by
  apply Char.ext
  apply UInt32.ext
  exact h

theorem lexLe_antisymm : ∀ as bs : List Char,
    lexLe as bs = true → lexLe bs as = true → as = bs
  | [], [], _, _ => rfl
  | [], _ :: _, _, h => by simp [lexLe] at h
  | _ :: _, [], h, _ => by simp [lexLe] at h
  | a :: as, b :: bs, h₁, h₂ => by
    rcases Nat.lt_trichotomy a.toNat b.toNat with h | h | h
    · simp [lexLe, h, h.le.not_lt, Nat.lt_irrefl] at h₂
    · have hab : a = b := char_toNat_inj h
      subst hab
      simp only [lexLe, Nat.lt_irrefl, if_false] at h₁ h₂
      exact congrArg (a :: ·) (lexLe_antisymm as bs h₁ h₂)
    · simp [lexLe, h, h.le.not_lt, Nat.lt_irrefl] at h₁

theorem lexLe_trans : ∀ as bs cs : List Char,
    lexLe as bs = true → lexLe bs cs = true → lexLe as cs = true
  | [], _, _, _, _ => rfl
  | _ :: _, [], _, h, _ => by simp [lexLe] at h
  | _ :: _, _ :: _, [], _, h => by simp [lexLe] at h
  | a :: as, b :: bs, c :: cs, h₁, h₂ => by
    rcases Nat.lt_trichotomy a.toNat b.toNat with hab | hab | hab <;>
      rcases Nat.lt_trichotomy b.toNat c.toNat with hbc | hbc | hbc
    · simp [lexLe, hab.trans hbc]
    · simp [lexLe, hbc ▸ hab]
    · simp [lexLe, hab, hab.le.not_lt, Nat.lt_irrefl] at h₂ ⊢
      omega
    · simp [lexLe, hab ▸ hbc]
    · have h' : a.toNat = c.toNat := hab.trans hbc
      simp only [lexLe, hab.not_lt, hab.symm.not_lt, hbc.not_lt, hbc.symm.not_lt,
        h'.not_lt, h'.symm.not_lt, if_false] at h₁ h₂ ⊢
      exact lexLe_trans as bs cs h₁ h₂
    · simp [lexLe, hbc, hbc.le.not_lt, Nat.lt_irrefl] at h₂
    · simp [lexLe, hab, hab.le.not_lt, Nat.lt_irrefl] at h₁
    · simp [lexLe, hab, hab.le.not_lt, Nat.lt_irrefl] at h₁
    · simp [lexLe, hab, hab.le.not_lt, Nat.lt_irrefl] at h₁

instance : IsTotal String strLe := ⟨fun a b => lexLe_total a.data b.data⟩

instance : IsTrans String strLe := ⟨fun a b c => lexLe_trans a.data b.data c.data⟩

instance : IsAntisymm String strLe :=
  ⟨fun a b h₁ h₂ => by
    cases a; cases b
    exact congrArg String.mk (lexLe_antisymm _ _ h₁ h₂)⟩

/-- `ParseArchitectures` from types.go: converts each raw string, inserts
into a set (the Go map `uniq`), and returns the members sorted by string
`<`.  The set-then-sort is embedded as dedup-then-insertionSort, which
produces the same sorted duplicate-free list. -/
def parseArchitectures (input : List String) : List Architecture :=
  List.insertionSort strLe ((input.map canonArch).dedup)

/-- The apk-style names recognized by the `switch` in `ParseArchitectures`. -/
def apkNames : List String := ["x86", "x86_64", "aarch64", "armhf", "armv7"]

/-- C4: for every list of raw architecture strings and every permutation
of it, `ParseArchitectures` returns the identical result; the result is
sorted lexicographically, duplicate-free, and its members are exactly
the canonical images of the input strings. -/
theorem parseArchitectures_perm_invariant (l l' : List String) (hp : l.Perm l') :
    parseArchitectures l = parseArchitectures l' ∧
    (parseArchitectures l).Sorted strLe ∧
    (parseArchitectures l).Nodup ∧
    (∀ a, a ∈ parseArchitectures l ↔ ∃ s ∈ l, canonArch s = a) := by
  refine ⟨?_, ?_, ?_, ?_⟩
  · have hd : ((l.map canonArch).dedup).Perm ((l'.map canonArch).dedup) :=
      (hp.map canonArch).dedup
    exact List.eq_of_perm_of_sorted
      ((List.perm_insertionSort strLe _).trans
        (hd.trans (List.perm_insertionSort strLe _).symm))
      (List.sorted_insertionSort strLe _) (List.sorted_insertionSort strLe _)
  · exact List.sorted_insertionSort strLe _
  · exact ((List.perm_insertionSort strLe _).nodup_iff).mpr (List.nodup_dedup _)
  · intro a
    rw [parseArchitectures, (List.perm_insertionSort strLe _).mem_iff,
      List.mem_dedup, List.mem_map]

/-- Witness for `parseArchitectures_perm_invariant` at a concrete pair of
permuted inputs mixing raw and canonical spellings. -/
theorem parseArchitectures_perm_invariant_witness :
    List.Perm ["x86_64", "arm64", "amd64"] ["arm64", "amd64", "x86_64"] ∧
    (parseArchitectures ["x86_64", "arm64", "amd64"] =
        parseArchitectures ["arm64", "amd64", "x86_64"] ∧
      parseArchitectures ["x86_64", "arm64", "amd64"] = ["amd64", "arm64"]) := by
  have hperm : List.Perm ["x86_64", "arm64", "amd64"] ["arm64", "amd64", "x86_64"] := by
    decide
  have h := parseArchitectures_perm_invariant
    ["x86_64", "arm64", "amd64"] ["arm64", "amd64", "x86_64"] hperm
  exact ⟨hperm, h.1, by decide⟩

/-- C8: the apk-name mapping round trips: parsing the one-element list
holding `a.ToAPK()` returns exactly `[a]`, for every canonical
architecture. -/
theorem toAPK_parse_roundtrip :
    ∀ a ∈ allArchs, parseArchitectures [toAPK a] = [a] := by decide

/-- Witness for `toAPK_parse_roundtrip` at `arm/v6`. -/
theorem toAPK_parse_roundtrip_witness :
    "arm/v6" ∈ allArchs ∧ parseArchitectures [toAPK "arm/v6"] = ["arm/v6"] :=
  ⟨by decide, toAPK_parse_roundtrip "arm/v6" (by decide)⟩

/-- C10: `ParseArchitectures` never rejects or filters input: any string
that is not one of the five apk-style names appears verbatim in the
output. -/
theorem parseArchitectures_passthrough (l : List String) (s : String)
    (hmem : s ∈ l) (hnot : s ∉ apkNames) :
    s ∈ parseArchitectures l := by
  have hcanon : canonArch s = s := by
    simp only [apkNames, List.mem_cons, List.not_mem_nil, or_false, not_or] at hnot
    obtain ⟨h1, h2, h3, h4, h5⟩ := hnot
    simp [canonArch, h1, h2, h3, h4, h5]
  rw [parseArchitectures, (List.perm_insertionSort strLe _).mem_iff, List.mem_dedup,
    List.mem_map]
  exact ⟨s, hmem, hcanon⟩

/-- Witness for `parseArchitectures_passthrough`: the non-architecture
string "bogus" passes through. -/
theorem parseArchitectures_passthrough_witness :
    ("bogus" ∈ ["bogus", "x86_64"] ∧ "bogus" ∉ apkNames) ∧
      "bogus" ∈ parseArchitectures ["bogus", "x86_64"] :=
  ⟨⟨by decide, by decide⟩,
    parseArchitectures_passthrough ["bogus", "x86_64"] "bogus" (by decide) (by decide)⟩

/-! ## Image configuration (pkg/build/types/image_configuration.go)

Go's `Validate` mutates the receiver and returns an error; the embedding
passes the configuration state explicitly and returns the final state
paired with the optional error. -/

/-- `types.User`.  Go's `uint32` ids are embedded as `Nat` (only `= 0`
comparisons occur). -/
structure User where
  userName : String
  uid : Nat
  gid : Nat
deriving DecidableEq

/-- `types.Group`. -/
structure Group where
  groupName : String
  gid : Nat
  members : List String
deriving DecidableEq

/-- The anonymous `Contents` struct of `types.ImageConfiguration`. -/
structure Contents where
  repositories : List String
  keyring : List String
  packages : List String
deriving DecidableEq

/-- The anonymous `Entrypoint` struct of `types.ImageConfiguration`; the
`map[interface{}]interface{}` of services is embedded as an association
list of service name and command. -/
structure Entrypoint where
  type : String
  command : String
  services : List (String × String)
deriving DecidableEq

/-- The anonymous `Accounts` struct of `types.ImageConfiguration`. -/
structure Accounts where
  runAs : String
  users : List User
  groups : List Group
deriving DecidableEq

/-- `types.ImageConfiguration`. -/
structure ImageConfiguration where
  contents : Contents
  entrypoint : Entrypoint
  accounts : Accounts
  archs : List Architecture
deriving DecidableEq

/-- The validation errors produced by `Validate` via `fmt.Errorf`; each
constructor carries the offending user or group the Go message formats
with `%v`. -/
inductive VErr where
  | userNoName (u : User)
  | userUIDZero (u : User)
  | groupNoName (g : Group)
  | groupGIDZero (g : Group)
deriving DecidableEq

/-- The user loop of `Validate`: name check first, then the UID 0 check,
first failure wins. -/
def checkUsers : List User → Option VErr
  | [] => none
  | u :: rest =>
    if u.userName = "" then some (VErr.userNoName u)
    else if u.uid = 0 then some (VErr.userUIDZero u)
    else checkUsers rest

/-- The group loop of `Validate`. -/
def checkGroups : List Group → Option VErr
  | [] => none
  | g :: rest =>
    if g.groupName = "" then some (VErr.groupNoName g)
    else if g.gid = 0 then some (VErr.groupGIDZero g)
    else checkGroups rest

/-- `ValidateServiceBundle`: forces the supervision launcher command and
appends the "s6" package; it always returns nil. -/
def validateServiceBundle (ic : ImageConfiguration) : ImageConfiguration × Option VErr :=
  ({ ic with
      entrypoint := { ic.entrypoint with command := "/bin/s6-svscan /sv" }
      contents := { ic.contents with packages := ic.contents.packages ++ ["s6"] } },
    none)

/-- `Validate`: service-bundle rewrite first (when the entrypoint type
matches), then the user checks, then the group checks.  Returns the
final (possibly mutated) configuration and the error, mirroring Go's
pointer-receiver mutation. -/
def validate (ic : ImageConfiguration) : ImageConfiguration × Option VErr :=
  let step :=
    if ic.entrypoint.type = "service-bundle" then validateServiceBundle ic
    else (ic, none)
  match step with
  | (ic', some e) => (ic', some e)
  | (ic', none) =>
    match checkUsers ic'.accounts.users with
    | some e => (ic', some e)
    | none =>
      match checkGroups ic'.accounts.groups with
      | some e => (ic', some e)
      | none => (ic', none)

/-- What it means for a validation error to identify an actually
offending user or group of the configuration. -/
def errOffends (ic : ImageConfiguration) : VErr → Prop
  | .userNoName u => u ∈ ic.accounts.users ∧ u.userName = ""
  | .userUIDZero u => u ∈ ic.accounts.users ∧ u.uid = 0
  | .groupNoName g => g ∈ ic.accounts.groups ∧ g.groupName = ""
  | .groupGIDZero g => g ∈ ic.accounts.groups ∧ g.gid = 0

theorem checkUsers_eq_none_iff (us : List User) :
    checkUsers us = none ↔ ∀ u ∈ us, u.userName ≠ "" ∧ u.uid ≠ 0 := by
  induction us with
  | nil => simp [checkUsers]
  | cons u rest ih =>
    by_cases h1 : u.userName = ""
    · simp [checkUsers, h1]
    · by_cases h2 : u.uid = 0
      · simp [checkUsers, h1, h2]
      · simp [checkUsers, h1, h2, ih]

theorem checkGroups_eq_none_iff (gs : List Group) :
    checkGroups gs = none ↔ ∀ g ∈ gs, g.groupName ≠ "" ∧ g.gid ≠ 0 := by
  induction gs with
  | nil => simp [checkGroups]
  | cons g rest ih =>
    by_cases h1 : g.groupName = ""
    · simp [checkGroups, h1]
    · by_cases h2 : g.gid = 0
      · simp [checkGroups, h1, h2]
      · simp [checkGroups, h1, h2, ih]

theorem checkUsers_some_offends (us : List User) (e : VErr) (h : checkUsers us = some e) :
    (∃ u ∈ us, u.userName = "" ∧ e = VErr.userNoName u) ∨
    (∃ u ∈ us, u.uid = 0 ∧ e = VErr.userUIDZero u) := by
  induction us with
  | nil => simp [checkUsers] at h
  | cons u rest ih =>
    by_cases h1 : u.userName = ""
    · simp only [checkUsers, h1, if_true, Option.some_inj] at h
      exact Or.inl ⟨u, List.mem_cons_self u rest, h1, h.symm⟩
    · by_cases h2 : u.uid = 0
      · simp only [checkUsers, h1, if_false, h2, if_true, Option.some_inj] at h
        exact Or.inr ⟨u, List.mem_cons_self u rest, h2, h.symm⟩
      · simp only [checkUsers, h1, if_false, h2] at h
        rcases ih h with ⟨u', hm, hp, he⟩ | ⟨u', hm, hp, he⟩
        · exact Or.inl ⟨u', List.mem_cons_of_mem u hm, hp, he⟩
        · exact Or.inr ⟨u', List.mem_cons_of_mem u hm, hp, he⟩

theorem checkGroups_some_offends (gs : List Group) (e : VErr) (h : checkGroups gs = some e) :
    (∃ g ∈ gs, g.groupName = "" ∧ e = VErr.groupNoName g) ∨
    (∃ g ∈ gs, g.gid = 0 ∧ e = VErr.groupGIDZero g) := by
  induction gs with
  | nil => simp [checkGroups] at h
  | cons g rest ih =>
    by_cases h1 : g.groupName = ""
    · simp only [checkGroups, h1, if_true, Option.some_inj] at h
      exact Or.inl ⟨g, List.mem_cons_self g rest, h1, h.symm⟩
    · by_cases h2 : g.gid = 0
      · simp only [checkGroups, h1, if_false, h2, if_true, Option.some_inj] at h
        exact Or.inr ⟨g, List.mem_cons_self g rest, h2, h.symm⟩
      · simp only [checkGroups, h1, if_false, h2] at h
        rcases ih h with ⟨g', hm, hp, he⟩ | ⟨g', hm, hp, he⟩
        · exact Or.inl ⟨g', List.mem_cons_of_mem g hm, hp, he⟩
        · exact Or.inr ⟨g', List.mem_cons_of_mem g hm, hp, he⟩

/-- `validate` in closed form: the state is the (possibly rewritten)
configuration, the error is the first failure of the user loop, else the
group loop. -/
theorem validate_eq (ic : ImageConfiguration) :
    validate ic =
      (let ic' := if ic.entrypoint.type = "service-bundle"
        then (validateServiceBundle ic).1 else ic
      (ic', match checkUsers ic'.accounts.users with
        | some e => some e
        | none => checkGroups ic'.accounts.groups)) := by
  by_cases h : ic.entrypoint.type = "service-bundle" <;>
    simp only [validate, h, if_true, if_false, validateServiceBundle] <;>
    rcases hu : checkUsers _ with _ | e <;>
    simp only [hu] <;>
    rcases hg : checkGroups _ with _ | e' <;>
    simp [hg]

theorem validate_accounts (ic : ImageConfiguration) :
    (validate ic).1.accounts = ic.accounts := by
  rw [validate_eq]
  by_cases h : ic.entrypoint.type = "service-bundle" <;> simp [h, validateServiceBundle]

theorem validate_snd_eq (ic : ImageConfiguration) :
    (validate ic).2 = (match checkUsers ic.accounts.users with
      | some e => some e
      | none => checkGroups ic.accounts.groups) := by
  rw [validate_eq]
  by_cases h : ic.entrypoint.type = "service-bundle" <;> simp [h, validateServiceBundle]

/-- Shared helper: the service-bundle rewrite is visible in the returned
state whenever the entrypoint type matches, regardless of the account
checks' outcome. -/
theorem validate_fst_serviceBundle (ic : ImageConfiguration)
    (htype : ic.entrypoint.type = "service-bundle") :
    (validate ic).1.entrypoint.command = "/bin/s6-svscan /sv" ∧
    "s6" ∈ (validate ic).1.contents.packages := by
  rw [validate_eq]
  simp [htype, validateServiceBundle]

/-- Shared helper: a user with UID 0 forces a validation error. -/
theorem validate_isSome_of_uidZero (ic : ImageConfiguration)
    (hbad : ∃ u ∈ ic.accounts.users, u.uid = 0) :
    (validate ic).2.isSome := by
  obtain ⟨u, hm, h0⟩ := hbad
  rw [validate_snd_eq]
  rcases hu : checkUsers ic.accounts.users with _ | e
  · exact absurd ((checkUsers_eq_none_iff _).mp hu u hm).2 (by simp [h0])
  · simp

/-- C7: any user with UID 0, any user with positive UID but empty name,
any group with GID 0 and any group with empty name make `Validate` fail,
and every error it returns identifies a user or group of the
configuration that actually violates its constraint. -/
theorem validate_rejects_invalid_accounts (ic : ImageConfiguration) :
    ((∃ u ∈ ic.accounts.users, u.uid = 0) → (validate ic).2.isSome) ∧
    ((∃ u ∈ ic.accounts.users, 0 < u.uid ∧ u.userName = "") → (validate ic).2.isSome) ∧
    ((∃ g ∈ ic.accounts.groups, g.gid = 0) → (validate ic).2.isSome) ∧
    ((∃ g ∈ ic.accounts.groups, g.groupName = "") → (validate ic).2.isSome) ∧
    (∀ e, (validate ic).2 = some e → errOffends ic e) := by
  refine ⟨validate_isSome_of_uidZero ic, ?_, ?_, ?_, ?_⟩
  · rintro ⟨u, hm, _, hname⟩
    rw [validate_snd_eq]
    rcases hu : checkUsers ic.accounts.users with _ | e
    · exact absurd ((checkUsers_eq_none_iff _).mp hu u hm).1 (by simp [hname])
    · simp
  · rintro ⟨g, hm, h0⟩
    rw [validate_snd_eq]
    rcases hu : checkUsers ic.accounts.users with _ | e
    · rcases hg : checkGroups ic.accounts.groups with _ | e'
      · exact absurd ((checkGroups_eq_none_iff _).mp hg g hm).2 (by simp [h0])
      · simp
    · simp
  · rintro ⟨g, hm, hname⟩
    rw [validate_snd_eq]
    rcases hu : checkUsers ic.accounts.users with _ | e
    · rcases hg : checkGroups ic.accounts.groups with _ | e'
      · exact absurd ((checkGroups_eq_none_iff _).mp hg g hm).1 (by simp [hname])
      · simp
    · simp
  · intro e he
    rw [validate_snd_eq] at he
    rcases hu : checkUsers ic.accounts.users with _ | e'
    · rw [hu] at he
      rcases checkGroups_some_offends _ _ he with ⟨g, hm, hp, hee⟩ | ⟨g, hm, hp, hee⟩ <;>
        (subst hee; exact ⟨hm, hp⟩)
    · rw [hu, Option.some_inj] at he
      subst he
      rcases checkUsers_some_offends _ _ hu with ⟨u, hm, hp, hee⟩ | ⟨u, hm, hp, hee⟩ <;>
        (subst hee; exact ⟨hm, hp⟩)

/-- A configuration holding a user with UID 0. -/
def cfgBadUser : ImageConfiguration :=
  { contents := ⟨[], [], []⟩
    entrypoint := ⟨"", "", []⟩
    accounts := ⟨"", [⟨"root", 0, 0⟩], []⟩
    archs := [] }

/-- Witness for `validate_rejects_invalid_accounts` on a configuration
whose single user has UID 0. -/
theorem validate_rejects_invalid_accounts_witness :
    (∃ u ∈ cfgBadUser.accounts.users, u.uid = 0) ∧ (validate cfgBadUser).2.isSome :=
  ⟨by decide, (validate_rejects_invalid_accounts cfgBadUser).1 (by decide)⟩

/-- C6: on a service-bundle configuration whose accounts validate, a
successful `Validate` leaves the supervision launcher as the entrypoint
command and the "s6" package in the package list. -/
theorem validate_serviceBundle_success (ic : ImageConfiguration)
    (htype : ic.entrypoint.type = "service-bundle")
    (hok : (validate ic).2 = none) :
    (validate ic).1.entrypoint.command = "/bin/s6-svscan /sv" ∧
    "s6" ∈ (validate ic).1.contents.packages :=
  validate_fst_serviceBundle ic htype

/-- A service-bundle configuration with no packages and valid accounts. -/
def cfgBundleOk : ImageConfiguration :=
  { contents := ⟨[], [], []⟩
    entrypoint := ⟨"service-bundle", "", []⟩
    accounts := ⟨"", [], []⟩
    archs := [] }

/-- Witness for `validate_serviceBundle_success` on a service-bundle
configuration with no explicitly configured packages. -/
theorem validate_serviceBundle_success_witness :
    (cfgBundleOk.entrypoint.type = "service-bundle" ∧ (validate cfgBundleOk).2 = none) ∧
    ((validate cfgBundleOk).1.entrypoint.command = "/bin/s6-svscan /sv" ∧
      "s6" ∈ (validate cfgBundleOk).1.contents.packages) :=
  ⟨⟨rfl, by decide⟩, validate_serviceBundle_success cfgBundleOk rfl (by decide)⟩

/-- C9: `Validate` is not atomic on failure: with a service-bundle
entrypoint and a UID-0 user it reports an error, yet the returned state
already carries the rewritten command and the appended "s6" package. -/
theorem validate_serviceBundle_mutates_before_failure (ic : ImageConfiguration)
    (htype : ic.entrypoint.type = "service-bundle")
    (hbad : ∃ u ∈ ic.accounts.users, u.uid = 0) :
    (validate ic).2.isSome ∧
    ((validate ic).1.entrypoint.command = "/bin/s6-svscan /sv" ∧
      "s6" ∈ (validate ic).1.contents.packages) :=
  ⟨validate_isSome_of_uidZero ic hbad, validate_fst_serviceBundle ic htype⟩

/-- A service-bundle configuration whose single user has UID 0. -/
def cfgBundleBad : ImageConfiguration :=
  { contents := ⟨[], [], []⟩
    entrypoint := ⟨"service-bundle", "", []⟩
    accounts := ⟨"", [⟨"root", 0, 0⟩], []⟩
    archs := [] }

/-- Witness for `validate_serviceBundle_mutates_before_failure`. -/
theorem validate_serviceBundle_mutates_before_failure_witness :
    (cfgBundleBad.entrypoint.type = "service-bundle" ∧
      (∃ u ∈ cfgBundleBad.accounts.users, u.uid = 0)) ∧
    ((validate cfgBundleBad).2.isSome ∧
      ((validate cfgBundleBad).1.entrypoint.command = "/bin/s6-svscan /sv" ∧
        "s6" ∈ (validate cfgBundleBad).1.contents.packages)) :=
  ⟨⟨rfl, by decide⟩,
    validate_serviceBundle_mutates_before_failure cfgBundleBad rfl (by decide)⟩

/-! ## Reproducible tarball writer (pkg/tarball/tarball.go)

`WriteArchiveFromFS` walks an `fs.FS` and emits one tar header (plus
file bytes) per visited entry.  The embedding abstracts the walk as the
list of visited entries in walk order and the gzip/tar byte encoding as
the list of emitted headers; timestamps are seconds since the Unix
epoch. -/

/-- The `fs.FileInfo` data consulted per entry: base name, mode bits as
flags, and the file's real timestamps. -/
structure FileInfo where
  name : String
  isSymlink : Bool
  isRegular : Bool
  accessTime : Nat
  modTime : Nat
  changeTime : Nat
deriving DecidableEq

/-- One entry of the `fs.WalkDir` traversal: the root-relative walk
path, its info, and the target `os.Readlink(filepath.Join(base, path))`
would return for a symlink. -/
structure WalkEntry where
  path : String
  info : FileInfo
  linkTarget : String
deriving DecidableEq

/-- The tar header fields the code touches. -/
structure TarHeader where
  name : String
  linkname : String
  accessTime : Nat
  modTime : Nat
  changeTime : Nat
deriving DecidableEq

/-- `tar.FileInfoHeader(info, link)`: the header starts from the file's
base name, real timestamps, and the link target for symlinks. -/
def fileInfoHeader (info : FileInfo) (link : String) : TarHeader :=
  { name := info.name
    linkname := if info.isSymlink then link else ""
    accessTime := info.accessTime
    modTime := info.modTime
    changeTime := info.changeTime }

/-- The per-entry body of the `fs.WalkDir` callback in
`WriteArchiveFromFS`: read the link target if the entry is a symlink,
build the header, then overwrite `Name` with the walk path and all three
timestamps with `SourceDateEpoch`. -/
def archiveHeader (epoch : Nat) (e : WalkEntry) : TarHeader :=
  let link := if e.info.isSymlink then e.linkTarget else ""
  let header := fileInfoHeader e.info link
  { header with
      name := e.path
      accessTime := epoch
      modTime := epoch
      changeTime := epoch }

/-- `WriteArchiveFromFS`: the sequence of headers written to the tar
stream for a walk of `fsys`.  `base` is only consulted for resolving
symlink targets (already folded into each entry's `linkTarget`), never
for naming. -/
def writeArchiveFromFS (base : String) (walk : List WalkEntry) (epoch : Nat) :
    List TarHeader :=
  walk.map (archiveHeader epoch)

/-- C3: every header emitted by `WriteArchiveFromFS` carries the fixed
source-date epoch in all three timestamp fields and is named by the
walk path relative to the tree root; the output does not depend on the
base path. -/
theorem writeArchiveFromFS_epoch_and_relative_names
    (base : String) (walk : List WalkEntry) (epoch : Nat) :
    (∀ hd ∈ writeArchiveFromFS base walk epoch,
      hd.accessTime = epoch ∧ hd.modTime = epoch ∧ hd.changeTime = epoch ∧
      ∃ e ∈ walk, hd.name = e.path) ∧
    (∀ base', writeArchiveFromFS base walk epoch = writeArchiveFromFS base' walk epoch) := by
  refine ⟨?_, fun _ => rfl⟩
  intro hd hmem
  rw [writeArchiveFromFS, List.mem_map] at hmem
  obtain ⟨e, he, rfl⟩ := hmem
  exact ⟨rfl, rfl, rfl, e, he, rfl⟩

/-- A walk entry whose real timestamps all differ from the epoch used
below. -/
def entryEx : WalkEntry := ⟨"etc/passwd", ⟨"passwd", false, true, 11, 22, 33⟩, ""⟩

/-- Witness for `writeArchiveFromFS_epoch_and_relative_names`: the
emitted header for `entryEx` carries epoch 7, not the file's real
timestamps, and is named by the relative walk path. -/
theorem writeArchiveFromFS_epoch_and_relative_names_witness :
    archiveHeader 7 entryEx ∈ writeArchiveFromFS "/work" [entryEx] 7 ∧
    ((archiveHeader 7 entryEx).accessTime = 7 ∧ (archiveHeader 7 entryEx).modTime = 7 ∧
      (archiveHeader 7 entryEx).changeTime = 7 ∧
      ∃ e ∈ [entryEx], (archiveHeader 7 entryEx).name = e.path) :=
  ⟨by decide,
    (writeArchiveFromFS_epoch_and_relative_names "/work" [entryEx] 7).1 _ (by decide)⟩

/-! ## CycloneDX SBOM generator (pkg/sbom/cyclonedx)

`Generate` is embedded as the pure construction of the document it
serializes; the `os.Create`/JSON-encoder plumbing is external I/O. -/

/-- A resolved package as carried by the SBOM options. -/
structure SBOMPackage where
  name : String
  version : String
  description : String
  license : String
  dependencies : List String
deriving DecidableEq

/-- OS identity carried by the SBOM options. -/
structure OSInfo where
  id : String
  name : String
  version : String
deriving DecidableEq

/-- The slice of `options.Options` that `Generate` reads. -/
structure SBOMOptions where
  os : OSInfo
  packages : List SBOMPackage
deriving DecidableEq

/-- Modelled from the spec: `purl.Package` lives in the `pkg/sbom/purl`
module, which is not among the given sources; per the spec the component
and dependency identities are package-URL strings of the form
`pkg:apk/<os-id>/<name>`. -/
def purlPackage (osID : String) (pkg : SBOMPackage) : String :=
  "pkg:apk/" ++ osID ++ "/" ++ pkg.name

structure SBOMLicense where
  expression : String

structure SBOMComponent where
  bomRef : String
  type : String
  name : String
  version : String
  description : String
  purl : String
  licenses : List SBOMLicense
  components : List SBOMComponent

structure SBOMDependency where
  ref : String
  dependsOn : List String
deriving DecidableEq

structure SBOMDocument where
  bomFormat : String
  specVersion : String
  version : Nat
  components : List SBOMComponent
  dependencies : List SBOMDependency

/-- The characters of the `strings.IndexAny(dep, " ~<>=/!")` cut set. -/
def constraintChars : List Char := [' ', '~', '<', '>', '=', '/', '!']

/-- The truncation at the first constraint character performed on each
dependency specifier. -/
def stripConstraint (dep : String) : String :=
  match dep.data.findIdx? (fun c => constraintChars.contains c) with
  | some i => ⟨dep.data.take i⟩
  | none => dep

/-- The dependency-walk of `Generate`: drop specifiers containing a
colon, strip constraint suffixes, drop specifiers that became empty, and
turn the rest into package-URL references. -/
def depRefs (osID : String) (deps : List String) : List String :=
  deps.filterMap (fun dep =>
    if ':' ∈ dep.data then none
    else
      let d := stripConstraint dep
      if d = "" then none
      else some ("pkg:apk/" ++ osID ++ "/" ++ d))

/-- The component built for one package inside `Generate`'s loop. -/
def pkgComponent (osID : String) (pkg : SBOMPackage) : SBOMComponent :=
  { bomRef := purlPackage osID pkg
    type := "operating-system"
    name := pkg.name
    version := pkg.version
    description := pkg.description
    purl := purlPackage osID pkg
    licenses := [{ expression := pkg.license }]
    components := [] }

/-- `Generate`: the document written to the SBOM path.  The single Go
loop appending to `pkgComponents` and `pkgDependencies` in lockstep is
embedded as two maps over the same package list. -/
def cdxGenerate (opts : SBOMOptions) : SBOMDocument :=
  let pkgComponents := opts.packages.map (pkgComponent opts.os.id)
  let pkgDependencies := opts.packages.map (fun pkg =>
    { ref := purlPackage opts.os.id pkg
      dependsOn := depRefs opts.os.id pkg.dependencies : SBOMDependency })
  let rootComponent : SBOMComponent :=
    { bomRef := "pkg:apk/" ++ opts.os.id
      type := "operating-system"
      name := opts.os.name
      version := opts.os.version
      description := ""
      purl := ""
      licenses := []
      components := pkgComponents }
  { bomFormat := "CycloneDX"
    specVersion := "1.4"
    version := 1
    components := [rootComponent]
    dependencies := pkgDependencies }

/-- The package of the C5 example. -/
def fooPkg : SBOMPackage :=
  { name := "foo"
    version := "1.2.3"
    description := "example package"
    license := "MIT"
    dependencies := ["bar>=1.0", "virtual:baz", "qux"] }

/-- C5: for package `foo` with dependency specifiers
`["bar>=1.0", "virtual:baz", "qux"]` and OS id `wolfi`, `Generate`
produces the dependency entry with ref `pkg:apk/wolfi/foo` and
dependsOn exactly `[pkg:apk/wolfi/bar, pkg:apk/wolfi/qux]`: the colon
specifier is dropped and the version constraint stripped. -/
theorem cyclonedx_generate_dependency_example :
    (cdxGenerate { os := ⟨"wolfi", "Wolfi", "20230201"⟩, packages := [fooPkg] }).dependencies =
      [{ ref := "pkg:apk/wolfi/foo"
         dependsOn := ["pkg:apk/wolfi/bar", "pkg:apk/wolfi/qux"] }] := by
  decide

/-! ## Build orchestration (BuildImage / runAssertions)

The package-manager collaborators (`InitApkDB`, `InitApkKeyring`, …) are
external to the core; each is embedded as its returned outcome (`none`
for success, `some msg` for failure).  Concurrency inside a phase is
embedded by quantifying over the completion order of the launched
operations: an `errgroup` returns the first error in completion order
after all its goroutines have returned, and the assertion channel drains
results in completion order. -/

/-- Modelled from the spec: the `build.Context` struct declaration is
not among the given sources (only its methods are); per the spec it
carries the working directory, the resolved configuration, the assertion
list, the SBOM output path and the emulation-layer flag.  Assertion
functions are passed separately to avoid a recursive field type. -/
structure BuildContext where
  workDir : String
  imageConfiguration : ImageConfiguration
  sbomPath : String
  useProot : Bool

/-- `multierror.Append`: a nil aggregate becomes a one-error aggregate,
an existing aggregate grows at the end. -/
def multiAppend (acc : Option (List String)) (e : String) : List String :=
  match acc with
  | none => [e]
  | some l => l ++ [e]

/-- The drain loop of `runAssertions`: fold `multierror.Append` over the
errors read from the channel, starting from the nil aggregate. -/
def collectErrors (drained : List String) : Option (List String) :=
  drained.foldl (fun acc e => some (multiAppend acc e)) none

/-- `runAssertions`, given the per-assertion results in goroutine
completion order: only non-nil errors reach the channel, and the drained
errors are aggregated with `multierror.Append`. -/
def runAssertions (completed : List (Option String)) : Option (List String) :=
  collectErrors (completed.filterMap id)

/-- The three concurrent operations of the bootstrap phase. -/
inductive BootOp where
  | keyring
  | repositories
  | world
deriving DecidableEq

/-- The two concurrent operations of the post-install phase. -/
inductive PostOp where
  | scripts
  | accounts
deriving DecidableEq

/-- The operations `BuildImage` can invoke, for tracing which phases
ran. -/
inductive Op where
  | validateOp
  | initDBOp
  | keyringOp
  | repositoriesOp
  | worldOp
  | fixateOp
  | scriptsOp
  | accountsOp
  | assertOp
  | busyboxOp
  | supervisionOp
  | sbomOp
deriving DecidableEq

/-- Outcomes of the external package-manager collaborator calls made by
`BuildImage` (`none` = success). -/
structure ApkOps where
  initDB : Option String
  initKeyring : Option String
  initRepositories : Option String
  initWorld : Option String
  fixateWorld : Option String
  normalizeScripts : Option String
  mutateAccounts : Option String
  installBusybox : Option String
  writeSupervisionTree : Option String
  generateSBOM : Option String
deriving DecidableEq

/-- One bootstrap goroutine: the collaborator outcome wrapped with the
phase-identifying message of its `eg.Go` closure. -/
def runBoot (ops : ApkOps) : BootOp → Option String
  | .keyring => ops.initKeyring.map (fun e => "failed to initialize apk keyring: " ++ e)
  | .repositories =>
    ops.initRepositories.map (fun e => "failed to initialize apk repositories: " ++ e)
  | .world => ops.initWorld.map (fun e => "failed to initialize apk world: " ++ e)

def bootOpTag : BootOp → Op
  | .keyring => .keyringOp
  | .repositories => .repositoriesOp
  | .world => .worldOp

/-- One post-install goroutine, wrapped like `runBoot`. -/
def runPost (ops : ApkOps) : PostOp → Option String
  | .scripts => ops.normalizeScripts.map (fun e => "failed to normalize scripts.tar: " ++ e)
  | .accounts => ops.mutateAccounts.map (fun e => "failed to mutate accounts: " ++ e)

def postOpTag : PostOp → Op
  | .scripts => .scriptsOp
  | .accounts => .accountsOp

/-- `errgroup.Group.Wait`: the first error in completion order, `none`
when every goroutine succeeded. -/
def firstErr (results : List (Option String)) : Option String :=
  results.findSome? id

/-- The errors `BuildImage` returns. -/
inductive BuildErr where
  | validation (e : VErr)
  | msg (s : String)
  | assertFailures (l : List String)
deriving DecidableEq

/-- The busybox phase: `InstallBusyboxSymlinks` is invoked only when
`UseProot` is set. -/
def busyboxStep (bc : BuildContext) (ops : ApkOps) : Option BuildErr × List Op :=
  if bc.useProot then
    match ops.installBusybox with
    | some e => (some (.msg ("failed to install busybox symlinks: " ++ e)), [.busyboxOp])
    | none => (none, [.busyboxOp])
  else (none, [])

/-- Phases 5–9 of `BuildImage` (post-install, assertions, busybox,
supervision tree, SBOM), with the trace relative to the fixate phase. -/
def postFixate (bc : BuildContext) (ops : ApkOps) (postOrder : List PostOp)
    (assertCompleted : List (Option String)) : Except BuildErr Unit × List Op :=
  let tp := postOrder.map postOpTag
  match firstErr (postOrder.map (runPost ops)) with
  | some e => (.error (.msg e), tp)
  | none =>
    match runAssertions assertCompleted with
    | some l => (.error (.assertFailures l), tp ++ [.assertOp])
    | none =>
      match busyboxStep bc ops with
      | (some e, tb) => (.error e, tp ++ [.assertOp] ++ tb)
      | (none, tb) =>
        match ops.writeSupervisionTree with
        | some e => (.error (.msg ("failed to write supervision tree: " ++ e)),
            tp ++ [.assertOp] ++ tb ++ [.supervisionOp])
        | none =>
          if bc.sbomPath ≠ "" then
            match ops.generateSBOM with
            | some e => (.error (.msg ("failed to generate SBOM: " ++ e)),
                tp ++ [.assertOp] ++ tb ++ [.supervisionOp, .sbomOp])
            | none => (.ok (), tp ++ [.assertOp] ++ tb ++ [.supervisionOp, .sbomOp])
          else (.ok (), tp ++ [.assertOp] ++ tb ++ [.supervisionOp])

/-- `BuildImage`: validate, init the apk database, run the bootstrap
phase concurrently (join via `errgroup`), fixate the world, then the
remaining phases.  `bootOrder` and `postOrder` are the goroutine
completion orders of the two concurrent phases; `assertCompleted` is the
completion-ordered result list of the assertions.  Returns the outcome
and the trace of invoked operations. -/
def buildImage (bc : BuildContext) (ops : ApkOps) (bootOrder : List BootOp)
    (postOrder : List PostOp) (assertCompleted : List (Option String)) :
    Except BuildErr Unit × List Op :=
  match (validate bc.imageConfiguration).2 with
  | some e => (.error (.validation e), [.validateOp])
  | none =>
    match ops.initDB with
    | some e => (.error (.msg ("failed to initialize apk database: " ++ e)),
        [.validateOp, .initDBOp])
    | none =>
      let t1 : List Op := [.validateOp, .initDBOp] ++ bootOrder.map bootOpTag
      match firstErr (bootOrder.map (runBoot ops)) with
      | some e => (.error (.msg e), t1)
      | none =>
        match ops.fixateWorld with
        | some e => (.error (.msg ("failed to fixate apk world: " ++ e)), t1 ++ [.fixateOp])
        | none =>
          match postFixate bc ops postOrder assertCompleted with
          | (r, t) => (r, t1 ++ [.fixateOp] ++ t)

theorem foldl_multiAppend (l acc : List String) :
    l.foldl (fun acc e => some (multiAppend acc e)) (some acc) = some (acc ++ l) := by
  induction l generalizing acc with
  | nil => simp
  | cons e rest ih =>
    rw [List.foldl_cons]
    exact (ih (acc ++ [e])).trans (by simp)

theorem collectErrors_eq (l : List String) :
    collectErrors l = if l.isEmpty then none else some l := by
  cases l with
  | nil => rfl
  | cons e rest =>
    have h1 : collectErrors (e :: rest) = some ([e] ++ rest) := foldl_multiAppend rest [e]
    simp [h1]

theorem length_filterMap_isSome {α β : Type} (g : α → Option β) (l : List α) :
    (l.filterMap g).length = (l.filter (fun a => (g a).isSome)).length := by
  induction l with
  | nil => rfl
  | cons a rest ih =>
    cases hg : g a <;> simp [List.filterMap_cons, hg, List.filter_cons, ih]

/-- C2: given any goroutine completion order of the assertion results,
`runAssertions` returns nil exactly when no assertion failed, and
otherwise its aggregate holds exactly the failing errors: a permutation
of them, with length equal to the number of failing assertions. -/
theorem runAssertions_aggregates_failures
    (as : List (BuildContext → Option String)) (bc : BuildContext)
    (completed : List (Option String))
    (hperm : completed.Perm (as.map (fun a => a bc))) :
    (runAssertions completed = none ↔ ∀ a ∈ as, a bc = none) ∧
    (∀ l, runAssertions completed = some l →
      l.Perm ((as.map (fun a => a bc)).filterMap id) ∧
      l.length = (as.filter (fun a => (a bc).isSome)).length) := by
  have hfm : (completed.filterMap id).Perm ((as.map (fun a => a bc)).filterMap id) :=
    hperm.filterMap id
  have hnil : completed.filterMap id = [] ↔ ∀ a ∈ as, a bc = none := by
    constructor
    · intro h0
      intro a ha
      have hmf : (as.map (fun a => a bc)).filterMap id = [] := (h0 ▸ hfm).symm.eq_nil
      have := List.filterMap_eq_nil_iff.mp hmf (a bc) (List.mem_map_of_mem _ ha)
      simpa using this
    · intro hall
      have hmf : (as.map (fun a => a bc)).filterMap id = [] := by
        apply List.filterMap_eq_nil_iff.mpr
        intro x hx
        obtain ⟨a, ha, rfl⟩ := List.mem_map.mp hx
        simp [hall a ha]
      exact (hmf ▸ hfm).eq_nil
  constructor
  · rw [runAssertions, collectErrors_eq]
    by_cases he : completed.filterMap id = []
    · simp only [he, List.isEmpty_nil, if_true]
      exact ⟨fun _ => hnil.mp he, fun _ => trivial⟩
    · rw [if_neg (by simpa [List.isEmpty_iff] using he)]
      exact ⟨fun h => absurd h (by simp), fun hall => absurd (hnil.mpr hall) he⟩
  · intro l hl
    rw [runAssertions, collectErrors_eq] at hl
    by_cases he : completed.filterMap id = []
    · rw [if_pos (by simpa [List.isEmpty_iff] using he)] at hl
      exact absurd hl (by simp)
    · rw [if_neg (by simpa [List.isEmpty_iff] using he), Option.some_inj] at hl
      subst hl
      refine ⟨hfm, ?_⟩
      rw [hfm.length_eq, List.filterMap_map]
      simpa using length_filterMap_isSome (fun a => a bc) as

/-- An all-empty configuration, used by concrete build contexts below. -/
def cfgNone : ImageConfiguration :=
  { contents := ⟨[], [], []⟩
    entrypoint := ⟨"", "", []⟩
    accounts := ⟨"", [], []⟩
    archs := [] }

/-- A plain build context over `cfgNone`. -/
def bcPlain : BuildContext := ⟨"/work", cfgNone, "", false⟩

/-- Two concrete assertions, the second failing. -/
def asEx : List (BuildContext → Option String) :=
  [fun _ => none, fun _ => some "assertion failed: missing file"]

/-- Witness for `runAssertions_aggregates_failures`: one of two
assertions fails, the completion order is reversed, and the aggregate
holds exactly the single failure. -/
theorem runAssertions_aggregates_failures_witness :
    List.Perm [some "assertion failed: missing file", none]
        (asEx.map (fun a => a bcPlain)) ∧
    (List.Perm ["assertion failed: missing file"]
        ((asEx.map (fun a => a bcPlain)).filterMap id) ∧
      (["assertion failed: missing file"] : List String).length =
        (asEx.filter (fun a => (a bcPlain).isSome)).length) :=
  have hperm : List.Perm [some "assertion failed: missing file", none]
      (asEx.map (fun a => a bcPlain)) :=
    List.Perm.swap none (some "assertion failed: missing file") []
  ⟨hperm,
    (runAssertions_aggregates_failures asEx bcPlain
        [some "assertion failed: missing file", none] hperm).2
      ["assertion failed: missing file"] rfl⟩

theorem firstErr_eq_none_iff (l : List (Option String)) :
    firstErr l = none ↔ ∀ o ∈ l, o = none := by
  induction l with
  | nil => simp [firstErr]
  | cons o rest ih =>
    cases o <;> simp [firstErr, List.findSome?_cons, ih]

theorem fixateOp_not_mem_bootTrace (bootOrder : List BootOp) :
    Op.fixateOp ∉ bootOrder.map bootOpTag := by
  simp only [List.mem_map, not_exists, not_and]
  intro b _
  cases b <;> simp [bootOpTag]

/-- C1: under any completion order of the three bootstrap goroutines,
all three are invoked (allowed to finish) before the phase outcome is
decided; if any failed, `BuildImage` returns the first reported error
and stops right after the bootstrap phase — `FixateApkWorld` is never
invoked; and `FixateApkWorld` is invoked exactly when all three
succeeded. -/
theorem buildImage_bootstrap_firstError
    (bc : BuildContext) (ops : ApkOps) (bootOrder : List BootOp)
    (postOrder : List PostOp) (ac : List (Option String))
    (hperm : bootOrder.Perm [BootOp.keyring, BootOp.repositories, BootOp.world])
    (hv : (validate bc.imageConfiguration).2 = none)
    (hdb : ops.initDB = none) :
    (∀ b : BootOp, bootOpTag b ∈ (buildImage bc ops bootOrder postOrder ac).2) ∧
    (∀ e, firstErr (bootOrder.map (runBoot ops)) = some e →
      buildImage bc ops bootOrder postOrder ac =
        (Except.error (BuildErr.msg e),
          [Op.validateOp, Op.initDBOp] ++ bootOrder.map bootOpTag) ∧
      Op.fixateOp ∉ (buildImage bc ops bootOrder postOrder ac).2) ∧
    (Op.fixateOp ∈ (buildImage bc ops bootOrder postOrder ac).2 ↔
      ∀ b ∈ bootOrder, runBoot ops b = none) := by
  have hmemboot : ∀ b : BootOp, b ∈ bootOrder := by
    intro b
    rw [hperm.mem_iff]
    cases b <;> simp
  rcases hfe : firstErr (bootOrder.map (runBoot ops)) with _ | e
  · have hall : ∀ b ∈ bootOrder, runBoot ops b = none := fun b hb =>
      (firstErr_eq_none_iff _).mp hfe (runBoot ops b) (List.mem_map_of_mem _ hb)
    rcases hf : ops.fixateWorld with _ | e'
    · rcases hpf : postFixate bc ops postOrder ac with ⟨r, t⟩
      have hb : buildImage bc ops bootOrder postOrder ac =
          (r, ([Op.validateOp, Op.initDBOp] ++ bootOrder.map bootOpTag) ++
            [Op.fixateOp] ++ t) := by
        simp [buildImage, hv, hdb, hfe, hf, hpf]
      rw [hb]
      refine ⟨?_, ?_, ?_⟩
      · intro b
        have hm : bootOpTag b ∈ bootOrder.map bootOpTag :=
          List.mem_map_of_mem _ (hmemboot b)
        simp [hm]
      · intro e he
        exact Option.noConfusion he
      · simp only [List.mem_append, List.mem_singleton, or_true, true_or, true_iff]
        exact hall
    · have hb : buildImage bc ops bootOrder postOrder ac =
          (Except.error (BuildErr.msg ("failed to fixate apk world: " ++ e')),
            ([Op.validateOp, Op.initDBOp] ++ bootOrder.map bootOpTag) ++
              [Op.fixateOp]) := by
        simp [buildImage, hv, hdb, hfe, hf]
      rw [hb]
      refine ⟨?_, ?_, ?_⟩
      · intro b
        have hm : bootOpTag b ∈ bootOrder.map bootOpTag :=
          List.mem_map_of_mem _ (hmemboot b)
        simp [hm]
      · intro e he
        exact Option.noConfusion he
      · simp only [List.mem_append, List.mem_singleton, or_true, true_iff]
        exact hall
  · have hb : buildImage bc ops bootOrder postOrder ac =
        (Except.error (BuildErr.msg e),
          [Op.validateOp, Op.initDBOp] ++ bootOrder.map bootOpTag) := by
      simp [buildImage, hv, hdb, hfe]
    refine ⟨?_, ?_, ?_⟩
    · intro b
      have hm : bootOpTag b ∈ bootOrder.map bootOpTag :=
        List.mem_map_of_mem _ (hmemboot b)
      rw [hb]
      simp [hm]
    · intro e' he'
      obtain rfl : e = e' := Option.some_inj.mp he'
      refine ⟨hb, ?_⟩
      rw [hb]
      intro hmem
      rcases List.mem_append.mp hmem with h | h
      · simp at h
      · exact fixateOp_not_mem_bootTrace bootOrder h
    · rw [hb]
      constructor
      · intro hmem
        exfalso
        rcases List.mem_append.mp hmem with h | h
        · simp at h
        · exact fixateOp_not_mem_bootTrace bootOrder h
      · intro hall
        exfalso
        have hnone : firstErr (bootOrder.map (runBoot ops)) = none := by
          apply (firstErr_eq_none_iff _).mpr
          intro o ho
          obtain ⟨b, hb', rfl⟩ := List.mem_map.mp ho
          exact hall b hb'
        rw [hnone] at hfe
        exact Option.noConfusion hfe

/-- Collaborator outcomes whose repository bootstrap fails. -/
def opsBootFail : ApkOps :=
  { initDB := none
    initKeyring := none
    initRepositories := some "fetch failed"
    initWorld := none
    fixateWorld := none
    normalizeScripts := none
    mutateAccounts := none
    installBusybox := none
    writeSupervisionTree := none
    generateSBOM := none }

/-- A completion order of the bootstrap goroutines. -/
def bootOrderEx : List BootOp := [.world, .repositories, .keyring]

/-- Witness for `buildImage_bootstrap_firstError`: with the repository
bootstrap failing, `BuildImage` returns that (wrapped) error, all three
bootstrap operations ran, and the fixate phase is absent from the
trace. -/
theorem buildImage_bootstrap_firstError_witness :
    (bootOrderEx.Perm [BootOp.keyring, BootOp.repositories, BootOp.world] ∧
      (validate bcPlain.imageConfiguration).2 = none ∧ opsBootFail.initDB = none) ∧
    (buildImage bcPlain opsBootFail bootOrderEx [PostOp.scripts, PostOp.accounts] [] =
        (Except.error (BuildErr.msg "failed to initialize apk repositories: fetch failed"),
          [Op.validateOp, Op.initDBOp] ++ bootOrderEx.map bootOpTag) ∧
      Op.fixateOp ∉ (buildImage bcPlain opsBootFail bootOrderEx
          [PostOp.scripts, PostOp.accounts] []).2) :=
  ⟨⟨by decide, by decide, rfl⟩,
    (buildImage_bootstrap_firstError bcPlain opsBootFail bootOrderEx
        [PostOp.scripts, PostOp.accounts] [] (by decide) (by decide) rfl).2.1
      "failed to initialize apk repositories: fetch failed" (by decide)⟩

end Apko
